import Mathlib

/-!
Verification of the inline-comment (text annotation) engine of the submission
review page (`src/unnamed/part_000`, component `SubmissionReviewPage`).

Modelling conventions:
* The canonical text (`submissionDetails.content`) is modelled as `List Char`,
  one element per code unit; all offsets are `Nat` indices into that list.
* `InlineComment` mirrors the TypeScript interface of the same name
  (part_000 lines 27-37).  The ISO `timestamp` string is modelled as a `Nat`
  (ISO-8601 strings compare lexicographically in timestamp order), and the
  optional `_id` field is omitted because none of the verified operations
  reads it.
* JavaScript `String.prototype.substring` clamps both arguments to the string
  length and swaps them when the first exceeds the second; `jsSubstring`
  reproduces that.
* `Array.prototype.sort` is guaranteed stable by the ECMAScript standard;
  a stable sort with comparator `(a, b) => a.startIndex - b.startIndex` is
  modelled by `List.insertionSort` on `a.startIndex ≤ b.startIndex`, which is
  stable for ties.
-/

namespace GradeGenie

/-- Mirror of the `InlineComment` interface (part_000 lines 27-37). -/
structure InlineComment where
  id : String
  startIndex : Nat
  endIndex : Nat
  text : String
  color : String
  timestamp : Nat
  author : String
  isAIGenerated : Bool
deriving DecidableEq

/-- JavaScript `s.substring(a, b)`: both indices are clamped to `s.length`
and swapped if out of order. -/
def jsSubstring (s : List Char) (a b : Nat) : List Char :=
  let a1 := min a s.length
  let b1 := min b s.length
  (s.take (max a1 b1)).drop (min a1 b1)

/-- Output shape of the renderer: the `segments` array built by
`renderHighlightedContent` (part_000 line 439), holding either a plain text
run or a highlighted run together with its comment. -/
inductive Segment where
  | text (content : List Char)
  | highlight (content : List Char) (comment : InlineComment)
deriving DecidableEq

/-- The `content` string carried by a segment. -/
def segmentValue : Segment → List Char
  | .text c => c
  | .highlight c _ => c

/-- Comparator used at part_000 lines 440 and 714:
`(a, b) => a.startIndex - b.startIndex`, i.e. ascending `startIndex`. -/
def commentLe (a b : InlineComment) : Prop := a.startIndex ≤ b.startIndex

instance : DecidableRel commentLe := fun a b => Nat.decLe a.startIndex b.startIndex

instance : IsTotal InlineComment commentLe := ⟨fun a b => Nat.le_total a.startIndex b.startIndex⟩

instance : IsTrans InlineComment commentLe := ⟨fun _ _ _ => Nat.le_trans⟩

/-- Stable ascending-by-`startIndex` sort, the model of
`[...inlineComments].sort((a, b) => a.startIndex - b.startIndex)`
(line 440) and of `inlineComments.sort(...)` (line 714). -/
def sortComments (l : List InlineComment) : List InlineComment :=
  List.insertionSort commentLe l

/-- The segment-building walk of `renderHighlightedContent`
(part_000 lines 439-445), for an already sorted comment list;
`lastIndex` is the cursor variable of the source. -/
def renderWalk (content : List Char) : Nat → List InlineComment → List Segment
  | lastIndex, [] =>
      if lastIndex < content.length then
        [Segment.text (jsSubstring content lastIndex content.length)]
      else []
  | lastIndex, c :: rest =>
      (if lastIndex < c.startIndex then
        [Segment.text (jsSubstring content lastIndex c.startIndex)]
      else []) ++
      Segment.highlight (jsSubstring content c.startIndex c.endIndex) c ::
        renderWalk content c.endIndex rest

/-- Segment list produced by `renderHighlightedContent` (part_000 lines
436-445) from the canonical text and the current comment set.  Paragraph
splitting (lines 447-469) only regroups the segments for layout and never
changes their `content` strings, so it is not part of the model. -/
def renderHighlightedContent (content : List Char) (comments : List InlineComment) :
    List Segment :=
  renderWalk content 0 (sortComments comments)

/-- Concatenation of every segment value, in order. -/
def renderConcat (content : List Char) (comments : List InlineComment) : List Char :=
  ((renderHighlightedContent content comments).map segmentValue).flatten

/-- Comment covering offsets 0-3 of the four-character demo text. -/
def overlapDemoA : InlineComment :=
  { id := "A", startIndex := 0, endIndex := 3, text := "first", color := "c1",
    timestamp := 1, author := "T", isAIGenerated := false }

/-- Comment covering offsets 2-4, overlapping `overlapDemoA`. -/
def overlapDemoB : InlineComment :=
  { id := "B", startIndex := 2, endIndex := 4, text := "second", color := "c2",
    timestamp := 2, author := "T", isAIGenerated := false }

/-- Validity of a comment range for a given canonical text, as the spec
defines it: a half-open sub-range with a positive width. -/
def validFor (content : List Char) (c : InlineComment) : Prop :=
  c.startIndex < c.endIndex ∧ c.endIndex ≤ content.length

instance (content : List Char) (c : InlineComment) : Decidable (validFor content c) := by
  unfold validFor; infer_instance

/-- Two comments whose ranges do not overlap. -/
def disjointRanges (a b : InlineComment) : Prop :=
  a.endIndex ≤ b.startIndex ∨ b.endIndex ≤ a.startIndex

instance (a b : InlineComment) : Decidable (disjointRanges a b) := by
  unfold disjointRanges; infer_instance

theorem disjointRanges_symm : ∀ {a b : InlineComment},
    disjointRanges a b → disjointRanges b a := fun h => Or.symm h

/-- Comment list whose ranges follow one another starting at cursor `k`:
each comment starts at or after the cursor left by its predecessor. -/
inductive Chained : Nat → List InlineComment → Prop
  | nil (k : Nat) : Chained k []
  | cons {k : Nat} {c : InlineComment} {rest : List InlineComment}
      (h1 : k ≤ c.startIndex) (h2 : Chained c.endIndex rest) : Chained k (c :: rest)

theorem drop_take_append_drop {α : Type} (l : List α) {i j : Nat} (hij : i ≤ j)
    (hj : j ≤ l.length) : (l.take j).drop i ++ l.drop j = l.drop i := by
  conv_rhs => rw [← List.take_append_drop j l]
  rw [List.drop_append_eq_append_drop, List.length_take, Nat.min_eq_left hj,
    Nat.sub_eq_zero_of_le hij, List.drop_zero]

theorem jsSubstring_of_le {a b : Nat} (l : List Char) (hab : a ≤ b) (hb : b ≤ l.length) :
    jsSubstring l a b = (l.take b).drop a := by
  simp only [jsSubstring]
  rw [min_eq_left (Nat.le_trans hab hb), min_eq_left hb,
    max_eq_right hab, min_eq_left hab]

theorem renderWalk_concat (content : List Char) :
    ∀ (l : List InlineComment) (k : Nat), k ≤ content.length →
      (∀ c ∈ l, validFor content c) → Chained k l →
      ((renderWalk content k l).map segmentValue).flatten = content.drop k := by
  intro l
  induction l with
  | nil =>
    intro k hk _ _
    by_cases h : k < content.length
    · simp only [renderWalk, if_pos h, List.map_cons, List.map_nil, List.flatten_cons,
        List.flatten_nil, List.append_nil, segmentValue]
      rw [jsSubstring_of_le content hk (Nat.le_refl _), List.take_length]
    · simp only [renderWalk, if_neg h, List.map_nil, List.flatten_nil]
      exact (List.drop_eq_nil_of_le (Nat.le_of_not_lt h)).symm
  | cons c rest ih =>
    intro k hk hv hc
    cases hc with
    | cons h1 h2 =>
      have hcv : validFor content c := hv c (List.mem_cons_self c rest)
      have hce : c.endIndex ≤ content.length := hcv.2
      have hcs : c.startIndex ≤ content.length := Nat.le_trans (Nat.le_of_lt hcv.1) hce
      have hrest := ih c.endIndex hce (fun d hd => hv d (List.mem_cons_of_mem c hd)) h2
      by_cases h : k < c.startIndex
      · simp only [renderWalk, if_pos h, List.map_append, List.map_cons, List.map_nil,
          List.flatten_append, List.flatten_cons, List.flatten_nil, List.append_nil,
          segmentValue, hrest]
        rw [jsSubstring_of_le content (Nat.le_of_lt h) hcs,
          jsSubstring_of_le content (Nat.le_of_lt hcv.1) hce,
          drop_take_append_drop content (Nat.le_of_lt hcv.1) hce,
          drop_take_append_drop content (Nat.le_of_lt h) hcs]
      · have hks : k = c.startIndex := Nat.le_antisymm h1 (Nat.le_of_not_lt h)
        simp only [renderWalk, if_neg h, List.nil_append, List.map_cons,
          List.flatten_cons, segmentValue, hrest]
        rw [jsSubstring_of_le content (Nat.le_of_lt hcv.1) hce,
          drop_take_append_drop content (Nat.le_of_lt hcv.1) hce, hks]

theorem chained_of_sorted_disjoint :
    ∀ (l : List InlineComment), l.Sorted commentLe → l.Pairwise disjointRanges →
      (∀ c ∈ l, c.startIndex < c.endIndex) →
      ∀ k : Nat, (∀ c ∈ l.head?, k ≤ c.startIndex) → Chained k l := by
  intro l
  induction l with
  | nil => intro _ _ _ k _; exact Chained.nil k
  | cons c rest ih =>
    intro hs hd hv k hk
    refine Chained.cons (hk c rfl) ?_
    refine ih hs.of_cons (List.Pairwise.sublist (List.sublist_cons_self c rest) hd)
      (fun d hd2 => hv d (List.mem_cons_of_mem c hd2)) c.endIndex ?_
    intro d hd2
    have hdm : d ∈ rest := List.mem_of_mem_head? hd2
    have hsd : commentLe c d := List.rel_of_sorted_cons hs d hdm
    have hdj : disjointRanges c d := (List.pairwise_cons.mp hd).1 d hdm
    rcases hdj with h | h
    · exact h
    · exact absurd
        (Nat.lt_of_lt_of_le (hv d (List.mem_cons_of_mem c hdm)) (Nat.le_trans h hsd))
        (Nat.lt_irrefl _)

/-- C1: the claim asserts the renderer round-trip (concatenation of all
segment values reproduces the canonical text) for every valid set of
offsets, explicitly including overlapping ranges.  The code (part_000
lines 441-443) re-reads each highlight from its own `startIndex` and sets
`lastIndex = comment.endIndex` without clamping to the cursor, so an
overlapped region is emitted twice: on `"abcd"` with ranges 0-3 and 2-4 the
concatenation is `"abccd"`, not `"abcd"`. -/
theorem C1_roundtrip_counterexample :
    (validFor (("abcd").toList) overlapDemoA ∧
      validFor (("abcd").toList) overlapDemoB) ∧
    renderConcat (("abcd").toList) [overlapDemoA, overlapDemoB] ≠ (("abcd").toList) := by
  decide

/-- C1 (amended): for every canonical text and every set of comments whose
offsets are valid sub-ranges of that text and whose ranges are pairwise
non-overlapping, concatenating the segment values produced by the renderer
yields exactly the canonical text.  (The unrestricted claim, which also
covers overlapping ranges, is refuted by `C1_roundtrip_counterexample`.) -/
theorem C1_roundtrip_of_disjoint (content : List Char) (comments : List InlineComment)
    (hv : ∀ c ∈ comments, validFor content c)
    (hd : comments.Pairwise disjointRanges) :
    renderConcat content comments = content := by
  unfold renderConcat renderHighlightedContent
  have hperm : List.Perm (sortComments comments) comments :=
    List.perm_insertionSort commentLe comments
  have hsorted : (sortComments comments).Sorted commentLe :=
    List.sorted_insertionSort commentLe comments
  have hd2 : (sortComments comments).Pairwise disjointRanges :=
    (hperm.pairwise_iff disjointRanges_symm).mpr hd
  have hv2 : ∀ c ∈ sortComments comments, validFor content c :=
    fun c hc => hv c (hperm.mem_iff.mp hc)
  have hchain : Chained 0 (sortComments comments) :=
    chained_of_sorted_disjoint (sortComments comments) hsorted hd2
      (fun c hc => (hv2 c hc).1) 0 (fun c _ => Nat.zero_le _)
  have := renderWalk_concat content (sortComments comments) 0 (Nat.zero_le _) hv2 hchain
  simpa using this

/-- Witness comment covering offsets 0-2 of the four-character demo text. -/
def disjointDemoA : InlineComment :=
  { id := "A", startIndex := 0, endIndex := 2, text := "first", color := "c1",
    timestamp := 1, author := "T", isAIGenerated := false }

/-- Witness comment covering offsets 2-4, disjoint from `disjointDemoA`. -/
def disjointDemoB : InlineComment :=
  { id := "B", startIndex := 2, endIndex := 4, text := "second", color := "c2",
    timestamp := 2, author := "T", isAIGenerated := false }

/-- Concrete instance of `C1_roundtrip_of_disjoint`. -/
theorem C1_roundtrip_of_disjoint_witness :
    renderConcat (("abcd").toList) [disjointDemoA, disjointDemoB] = (("abcd").toList) :=
  C1_roundtrip_of_disjoint (("abcd").toList) [disjointDemoA, disjointDemoB]
    (by decide) (by decide)

/-- Canonical text of the overlap-clipping example of the spec. -/
def foxText : List Char := ("The quick brown fox").toList

/-- Comment A of the overlap-clipping example: offsets 4-15. -/
def foxA : InlineComment :=
  { id := "A", startIndex := 4, endIndex := 15, text := "a", color := "c1",
    timestamp := 1, author := "T", isAIGenerated := false }

/-- Comment B of the overlap-clipping example: offsets 10-19, created later. -/
def foxB : InlineComment :=
  { id := "B", startIndex := 10, endIndex := 19, text := "b", color := "c2",
    timestamp := 2, author := "T", isAIGenerated := false }

/-- C2: the claim predicts that B's highlight is clipped at the cursor,
producing segments `"The "`, `"quick brown"`, `" fox"`.  The code performs no
clipping: it re-reads `content.substring(comment.startIndex, comment.endIndex)`
for every comment (part_000 line 442), so B's segment is the full
`"brown fox"`, and the claimed sequence is not produced. -/
theorem C2_overlap_clipping_counterexample :
    renderHighlightedContent foxText [foxA, foxB] ≠
      [Segment.text (("The ").toList),
       Segment.highlight (("quick brown").toList) foxA,
       Segment.highlight ((" fox").toList) foxB] := by
  decide

/-- C2 (amended): on canonical text `"The quick brown fox"` with comment A at
offsets 4-15 (created earlier) and comment B at offsets 10-19 (created later),
the renderer emits text `"The "`, highlight(A) `"quick brown"`, and
highlight(B) `"brown fox"` — B's highlighted value is its full range re-read
from offset 10, not clipped to start at the prior cursor 15, so the
overlapped region `"brown"` appears twice in the rendered output. -/
theorem C2_overlap_actual_segments :
    renderHighlightedContent foxText [foxA, foxB] =
      [Segment.text (("The ").toList),
       Segment.highlight (("quick brown").toList) foxA,
       Segment.highlight (("brown fox").toList) foxB] := by
  decide

/-- JavaScript `String.prototype.trim` on a code-unit list: leading and
trailing whitespace removed. -/
def jsTrim (s : List Char) : List Char :=
  ((s.dropWhile Char.isWhitespace).reverse.dropWhile Char.isWhitespace).reverse

/-- JavaScript `String.prototype.trim` on a `String`. -/
def jsTrimStr (s : String) : String :=
  String.mk (jsTrim s.toList)

/-- Payload of `addInlineComment` (part_000 line 226): the
`Omit<InlineComment, 'id' | 'color' | '_id'>` argument. -/
structure NewCommentData where
  startIndex : Nat
  endIndex : Nat
  text : String
  timestamp : Nat
  author : String
  isAIGenerated : Bool
deriving DecidableEq

/-- Model of `addInlineComment` (part_000 lines 226-241): builds the new
record and appends it to the list.  The generated temporary id and the
randomly picked highlight color are parameters (`tempId`, `color`); the
side effects on `newCommentText`, `selectedText`, `selectionRange` and
`activeCommentId` do not touch the store.  Note that neither the canonical
text nor any range check appears here. -/
def addInlineComment (commentToAdd : NewCommentData) (tempId : String) (color : String)
    (prev : List InlineComment) : List InlineComment :=
  prev ++ [{ id := tempId, startIndex := commentToAdd.startIndex,
             endIndex := commentToAdd.endIndex, text := commentToAdd.text,
             color := color, timestamp := commentToAdd.timestamp,
             author := commentToAdd.author,
             isAIGenerated := commentToAdd.isAIGenerated }]

/-- Model of `handleAddCommentClick` (part_000 lines 243-254): the add path
for human comments.  The only guards are a non-blank comment body and the
presence of a selection range (`if (!newCommentText.trim() || !selectionRange)
return`); the range itself is never validated. -/
def handleAddCommentClick (newCommentText : String) (selectionRange : Option (Nat × Nat))
    (timestamp : Nat) (author : String) (tempId : String) (color : String)
    (prev : List InlineComment) : List InlineComment :=
  if jsTrimStr newCommentText = "" then prev
  else
    match selectionRange with
    | none => prev
    | some r =>
        addInlineComment
          { startIndex := r.1, endIndex := r.2, text := newCommentText,
            timestamp := timestamp, author := author, isAIGenerated := false }
          tempId color prev

/-- C3: the claim asserts that `add` rejects a range with `start >= end` or
`end > length(text)` with `InvalidRange` and leaves the store unchanged.
The code has no validation at all: with range `(5, 3)` (start > end, and both
out of bounds of the four-character text `"abcd"`) the empty store still gains
one record carrying exactly that invalid range. -/
theorem C3_add_validation_counterexample :
    handleAddCommentClick ("note") (some (5, 3)) 0 ("T") ("tmp-1") ("c1") [] ≠ [] ∧
    (handleAddCommentClick ("note") (some (5, 3)) 0 ("T") ("tmp-1") ("c1") []).map
        (fun c => (c.startIndex, c.endIndex)) = [(5, 3)] := by
  constructor
  · decide
  · decide

/-- C3 (amended): `handleAddCommentClick` performs no range validation.
Whenever the comment body is non-blank and a selection range is present, the
record is appended with exactly the given offsets — valid or not — and the
rest of the store is unchanged; there is no `InvalidRange` rejection path. -/
theorem C3_add_no_validation (newCommentText : String) (s e : Nat) (timestamp : Nat)
    (author tempId color : String) (prev : List InlineComment)
    (h : jsTrimStr newCommentText ≠ "") :
    handleAddCommentClick newCommentText (some (s, e)) timestamp author tempId color prev =
      prev ++ [{ id := tempId, startIndex := s, endIndex := e, text := newCommentText,
                 color := color, timestamp := timestamp, author := author,
                 isAIGenerated := false }] := by
  unfold handleAddCommentClick addInlineComment
  simp [h]

/-- Concrete instance of `C3_add_no_validation` at the invalid range `(5, 3)`. -/
theorem C3_add_no_validation_witness :
    handleAddCommentClick ("note") (some (5, 3)) 7 ("T") ("tmp-2") ("c2") [] =
      [{ id := "tmp-2", startIndex := 5, endIndex := 3, text := "note",
         color := "c2", timestamp := 7, author := "T", isAIGenerated := false }] :=
  C3_add_no_validation ("note") 5 3 7 ("T") ("tmp-2") ("c2") [] (by decide)

/-- Shape of one entry of `analysisResult.suggestedInlineComments`
(part_000 lines 325-332). -/
structure Suggestion where
  startIndex : Nat
  endIndex : Nat
  text : String
deriving DecidableEq

/-- Record built for one AI suggestion (part_000 lines 325-332); the
generated id and random color for the item at position `i` are supplied by
`freshId` and `freshColor`, the shared creation time by `timestamp`. -/
def aiCommentOf (freshId freshColor : Nat → String) (timestamp : Nat) (i : Nat)
    (s : Suggestion) : InlineComment :=
  { id := freshId i, startIndex := s.startIndex, endIndex := s.endIndex, text := s.text,
    color := freshColor i, timestamp := timestamp, author := "AI Assistant",
    isAIGenerated := true }

/-- Model of the bulk insertion of AI-suggested comments inside
`handleAnalyzeWithAI` (part_000 lines 324-334): when the suggestion list is
non-empty, every suggestion is mapped to a record and appended
(`setInlineComments(prev => [...prev, ...newAIComments])`).  No per-item
range check of any kind is performed. -/
def applySuggestedInlineComments (freshId freshColor : Nat → String) (timestamp : Nat)
    (suggestions : List Suggestion) (prev : List InlineComment) : List InlineComment :=
  if 0 < suggestions.length then
    prev ++ suggestions.mapIdx (fun i s => aiCommentOf freshId freshColor timestamp i s)
  else prev

/-- C5: the claim asserts per-item validation with silent dropping, so the
batch with ranges `(0, 5)` (valid) and `(8, 3)` (invalid, start > end) should
add exactly one record.  The code validates nothing: both records are added. -/
theorem C5_addMany_counterexample :
    (applySuggestedInlineComments (fun _ => "id") (fun _ => "c") 0
        [{ startIndex := 0, endIndex := 5, text := "a" },
         { startIndex := 8, endIndex := 3, text := "b" }] []).length = 2 ∧
    ¬ (applySuggestedInlineComments (fun _ => "id") (fun _ => "c") 0
        [{ startIndex := 0, endIndex := 5, text := "a" },
         { startIndex := 8, endIndex := 3, text := "b" }] []).length = 1 := by
  constructor
  · simp [applySuggestedInlineComments]
  · simp [applySuggestedInlineComments]

theorem length_applySuggestedInlineComments (freshId freshColor : Nat → String)
    (timestamp : Nat) (suggestions : List Suggestion) (prev : List InlineComment) :
    (applySuggestedInlineComments freshId freshColor timestamp suggestions prev).length =
      prev.length + suggestions.length := by
  unfold applySuggestedInlineComments
  by_cases h : 0 < suggestions.length
  · simp [h]
  · simp [h, Nat.eq_zero_of_not_pos h]

/-- C5 (amended): the bulk AI path performs no per-item validation: every
suggested item, invalid ranges included, is turned into a record and
appended, so the store always grows by exactly the size of the batch (and,
in particular, the batch `(0, 5)`, `(8, 3)` adds two records, not one).
Nothing fails or throws. -/
theorem C5_addMany_adds_all (freshId freshColor : Nat → String) (timestamp : Nat)
    (suggestions : List Suggestion) (prev : List InlineComment) :
    (applySuggestedInlineComments freshId freshColor timestamp suggestions prev).length =
      prev.length + suggestions.length ∧
    applySuggestedInlineComments freshId freshColor timestamp suggestions prev =
      prev ++ suggestions.mapIdx
        (fun i s => aiCommentOf freshId freshColor timestamp i s) := by
  refine ⟨length_applySuggestedInlineComments freshId freshColor timestamp suggestions prev, ?_⟩
  unfold applySuggestedInlineComments
  by_cases h : 0 < suggestions.length
  · simp [h]
  · have : suggestions = [] := List.eq_nil_of_length_eq_zero (Nat.eq_zero_of_not_pos h)
    simp [this]

/-- State touched by the AI-analysis response handler: the canonical text
(`submissionDetails.content`) and the comment store. -/
structure ReviewState where
  content : List Char
  inlineComments : List InlineComment
deriving DecidableEq

/-- Model of resolving an outstanding `handleAnalyzeWithAI` request
(part_000 lines 299-346).  The request body captured
`submissionDetails.content` at issue time (`capturedContent`, line 310), but
the response handler (lines 324-334) never compares it against the current
content: it unconditionally appends the suggested comments to the current
store. -/
def resolveAnalyzeResponse (capturedContent : List Char) (freshId freshColor : Nat → String)
    (timestamp : Nat) (suggestions : List Suggestion) (st : ReviewState) : ReviewState :=
  { st with
    inlineComments :=
      (applySuggestedInlineComments freshId freshColor timestamp suggestions
        st.inlineComments) }

/-- C4: the claim asserts a staleness check: a response whose captured text
differs from the current one must be discarded, leaving the store unmodified.
No such check exists: with captured text `"old"` and current text `"new"`,
resolving a one-suggestion response still mutates the store. -/
theorem C4_stale_response_counterexample :
    ("old").toList ≠ ("new").toList ∧
    (resolveAnalyzeResponse (("old").toList) (fun _ => "id") (fun _ => "c") 0
        [{ startIndex := 0, endIndex := 1, text := "s" }]
        { content := ("new").toList, inlineComments := [] }).inlineComments ≠ [] := by
  constructor
  · decide
  · simp [resolveAnalyzeResponse, applySuggestedInlineComments]

/-- C4 (amended): the resolved AI-suggestion response is applied to the store
even when the canonical text has been replaced while the request was
outstanding: the handler performs no staleness check, so whenever the
captured text differs from the current one the store is still extended by
the whole batch (and the result does not depend on the captured text at
all). -/
theorem C4_no_staleness_check (capturedContent other : List Char)
    (freshId freshColor : Nat → String) (timestamp : Nat)
    (suggestions : List Suggestion) (st : ReviewState)
    (hstale : capturedContent ≠ st.content) :
    (resolveAnalyzeResponse capturedContent freshId freshColor timestamp suggestions
        st).inlineComments.length =
      st.inlineComments.length + suggestions.length ∧
    resolveAnalyzeResponse capturedContent freshId freshColor timestamp suggestions st =
      resolveAnalyzeResponse other freshId freshColor timestamp suggestions st := by
  refine ⟨?_, rfl⟩
  simpa [resolveAnalyzeResponse] using
    length_applySuggestedInlineComments freshId freshColor timestamp suggestions
      st.inlineComments

/-- Concrete instance of `C4_no_staleness_check`: the stale response grows
the store from zero to one comment. -/
theorem C4_no_staleness_check_witness :
    (resolveAnalyzeResponse (("old").toList) (fun _ => "id2") (fun _ => "c2") 3
        [{ startIndex := 0, endIndex := 1, text := "s" }]
        { content := ("new").toList, inlineComments := [] }).inlineComments.length =
      0 + 1 :=
  (C4_no_staleness_check (("old").toList) (("new").toList) (fun _ => "id2")
    (fun _ => "c2") 3 [{ startIndex := 0, endIndex := 1, text := "s" }]
    { content := ("new").toList, inlineComments := [] } (by decide)).1

/-- Display order demanded by the claim for C6: ascending `startIndex`,
ties broken by ascending creation time. -/
def sortedByStartThenTime (l : List InlineComment) : Prop :=
  l.Pairwise (fun a b =>
    a.startIndex < b.startIndex ∨
      (a.startIndex = b.startIndex ∧ a.timestamp ≤ b.timestamp))

/-- Tie comment at offset 0 created later (timestamp 5) but listed first. -/
def tieDemoLate : InlineComment :=
  { id := "late", startIndex := 0, endIndex := 2, text := "x", color := "c1",
    timestamp := 5, author := "T", isAIGenerated := false }

/-- Tie comment at offset 0 created earlier (timestamp 1) but listed second. -/
def tieDemoEarly : InlineComment :=
  { id := "early", startIndex := 0, endIndex := 3, text := "y", color := "c2",
    timestamp := 1, author := "T", isAIGenerated := false }

/-- C6: the claim asserts that the display sequence is sorted by
`startOffset` with ties broken by `createdAt` ascending.  The comparator at
part_000 lines 440 and 714 is `(a, b) => a.startIndex - b.startIndex`: it
never consults the timestamp, so two comments sharing a `startIndex` stay in
insertion order even when the later-created one comes first. -/
theorem C6_sort_counterexample :
    ¬ sortedByStartThenTime (sortComments [tieDemoLate, tieDemoEarly]) := by
  have hs : sortComments [tieDemoLate, tieDemoEarly] = [tieDemoLate, tieDemoEarly] := by
    decide
  rw [hs]
  intro h
  rcases (List.pairwise_cons.mp h).1 tieDemoEarly (List.mem_cons_self _ _) with h1 | h1
  · exact absurd h1 (by decide)
  · exact absurd h1.2 (by decide)

theorem filter_orderedInsert_startIndex (k : Nat) (a : InlineComment) :
    ∀ s : List InlineComment,
      (List.orderedInsert commentLe a s).filter (fun c => c.startIndex == k) =
        if a.startIndex == k then a :: s.filter (fun c => c.startIndex == k)
        else s.filter (fun c => c.startIndex == k) := by
  intro s
  induction s with
  | nil => simp [List.orderedInsert, List.filter_cons, beq_iff_eq]
  | cons b t ih =>
    by_cases hab : commentLe a b
    · rw [List.orderedInsert_of_le commentLe t hab]
      by_cases hak : a.startIndex = k <;> simp [List.filter_cons, beq_iff_eq, hak]
    · have hba : b.startIndex < a.startIndex := by
        simpa [commentLe] using Nat.lt_of_not_le hab
      simp only [List.orderedInsert, if_neg hab]
      by_cases hak : a.startIndex = k
      · have hbk : ¬ b.startIndex = k := by omega
        simp [List.filter_cons, beq_iff_eq, hbk, ih, hak]
      · by_cases hbk : b.startIndex = k <;> simp [List.filter_cons, beq_iff_eq, hbk, ih, hak]

theorem filter_sortComments_startIndex (k : Nat) :
    ∀ l : List InlineComment,
      (sortComments l).filter (fun c => c.startIndex == k) =
        l.filter (fun c => c.startIndex == k) := by
  intro l
  induction l with
  | nil => rfl
  | cons a t ih =>
    show (List.orderedInsert commentLe a (sortComments t)).filter _ = _
    rw [filter_orderedInsert_startIndex k a (sortComments t), ih]
    by_cases hak : a.startIndex = k <;> simp [List.filter_cons, beq_iff_eq, hak]

/-- C6 (amended): the display sequence (used both by the renderer walk at
part_000 line 440 and by the sidebar enumeration at line 714, which share the
comparator) is sorted by `startOffset` ascending only; `createdAt` is never
consulted.  The sort is stable, so comments tying on `startOffset` keep their
insertion order: the output is a permutation of the store in which the
sub-sequence at each `startOffset` is exactly the store's sub-sequence at
that offset. -/
theorem C6_sort_by_start_stable (l : List InlineComment) :
    (sortComments l).Sorted commentLe ∧
    List.Perm (sortComments l) l ∧
    ∀ k : Nat, (sortComments l).filter (fun c => c.startIndex == k) =
      l.filter (fun c => c.startIndex == k) :=
  ⟨List.sorted_insertionSort commentLe l, List.perm_insertionSort commentLe l,
    fun k => filter_sortComments_startIndex k l⟩

/-- Number of rendered characters preceding the selection anchor: the DOM
text of the container consists of the fragment list `frags` in order, the
anchor sits in fragment `fragIndex` at offset `fragOffset`, and
`preSelectionRange.toString().length` (part_000 lines 211-214) is the total
length of all fragments before the anchor fragment plus the offset. -/
def selPrefixLen (frags : List (List Char)) (fragIndex fragOffset : Nat) : Nat :=
  ((frags.take fragIndex).map List.length).sum + fragOffset

/-- Raw text of the selection (`selection.toString()` before trimming): the
`rawLength` rendered characters following the anchor. -/
def selRawText (frags : List (List Char)) (fragIndex fragOffset rawLength : Nat) :
    List Char :=
  ((frags.flatten).drop (selPrefixLen frags fragIndex fragOffset)).take rawLength

/-- Model of `handleTextSelection` (part_000 lines 200-224).  The result is
the `selectionRange` state after the handler runs: when comment mode is off
the handler returns immediately and the previous range survives; when the
selection is missing or anchored outside the tracked container, or its
trimmed text is empty, the range is cleared (`null`); otherwise
`start = preSelectionRange.toString().length` and
`end = start + selection.toString().trim().length`. -/
def handleTextSelection (isCommentMode inContainer : Bool)
    (prevRange : Option (Nat × Nat)) (frags : List (List Char))
    (fragIndex fragOffset rawLength : Nat) : Option (Nat × Nat) :=
  if !isCommentMode then prevRange
  else if !inContainer then none
  else
    let text := jsTrim (selRawText frags fragIndex fragOffset rawLength)
    if text = [] then none
    else some (selPrefixLen frags fragIndex fragOffset,
               selPrefixLen frags fragIndex fragOffset + text.length)

/-- C7: in comment mode, for a selection anchored inside the tracked view,
the mapper yields `null` when the trimmed selection text is empty (an
all-whitespace or zero-length selection) and otherwise `{start, end}` with
`start` the number of rendered characters preceding the selection's start
point and `end = start + length(selectedText)` (the stored selected text is
the trimmed selection).  The result depends on the fragment list only
through the concatenated rendered text and the flat anchor position, so it
is invariant under how the renderer split the text into fragments. -/
theorem C7_selection_mapper (prevRange : Option (Nat × Nat))
    (frags : List (List Char)) (fragIndex fragOffset rawLength : Nat) :
    (jsTrim (selRawText frags fragIndex fragOffset rawLength) = [] →
      handleTextSelection true true prevRange frags fragIndex fragOffset rawLength =
        none) ∧
    (jsTrim (selRawText frags fragIndex fragOffset rawLength) ≠ [] →
      handleTextSelection true true prevRange frags fragIndex fragOffset rawLength =
        some (selPrefixLen frags fragIndex fragOffset,
          selPrefixLen frags fragIndex fragOffset +
            (jsTrim (selRawText frags fragIndex fragOffset rawLength)).length)) ∧
    (∀ (frags2 : List (List Char)) (fragIndex2 fragOffset2 : Nat),
      frags.flatten = frags2.flatten →
      selPrefixLen frags fragIndex fragOffset =
        selPrefixLen frags2 fragIndex2 fragOffset2 →
      handleTextSelection true true prevRange frags fragIndex fragOffset rawLength =
        handleTextSelection true true prevRange frags2 fragIndex2 fragOffset2
          rawLength) := by
  refine ⟨fun h => ?_, fun h => ?_, fun frags2 i2 o2 hflat hpos => ?_⟩
  · simp [handleTextSelection, h]
  · simp [handleTextSelection, h]
  · simp only [handleTextSelection, selRawText, hflat, hpos]

/-- Concrete instance of `C7_selection_mapper`: selecting characters 6-11
(`"world"`) of the unannotated rendered text `"Hello world"` returns
offsets `{start := 6, end := 11}`. -/
theorem C7_selection_mapper_witness :
    handleTextSelection true true none [("Hello world").toList] 0 6 5 = some (6, 11) :=
  ((C7_selection_mapper none [("Hello world").toList] 0 6 5).2.1
    (by decide)).trans (by decide)

/-- Model of `updateCommentText` (part_000 lines 262-265): map over the
store, replacing only the `text` field of records whose id matches. -/
def updateCommentText (idToUpdate : String) (newText : String)
    (prev : List InlineComment) : List InlineComment :=
  prev.map (fun c => if c.id = idToUpdate then { c with text := newText } else c)

/-- C8: an update touches only the `text` (body) field of the record with
the matching id — the record kept at every position is either untouched or
identical except for `text` — and an update with an absent id leaves the
store entirely unchanged. -/
theorem C8_update_body_only (idToUpdate newText : String) (prev : List InlineComment) :
    (updateCommentText idToUpdate newText prev).length = prev.length ∧
    (∀ (i : Nat) (hi : i < prev.length)
        (hi2 : i < (updateCommentText idToUpdate newText prev).length),
      (updateCommentText idToUpdate newText prev)[i] =
        (if (prev[i]).id = idToUpdate then { prev[i] with text := newText }
         else prev[i])) ∧
    ((∀ c ∈ prev, c.id ≠ idToUpdate) → updateCommentText idToUpdate newText prev = prev) := by
  refine ⟨by simp [updateCommentText], fun i hi hi2 => ?_, fun h => ?_⟩
  · simp [updateCommentText]
  · have hmap : prev.map (fun c =>
        if c.id = idToUpdate then { c with text := newText } else c) = prev.map id :=
      List.map_congr_left (fun c hc => by simp [h c hc])
    simpa [updateCommentText] using hmap

/-- Comment with id `"a"` used by the C8 witness. -/
def updDemoA : InlineComment :=
  { id := "a", startIndex := 1, endIndex := 4, text := "old", color := "c1",
    timestamp := 1, author := "T", isAIGenerated := false }

/-- Comment with id `"b"` used by the C8 witness. -/
def updDemoB : InlineComment :=
  { id := "b", startIndex := 6, endIndex := 9, text := "keep", color := "c2",
    timestamp := 2, author := "T", isAIGenerated := true }

/-- Concrete instance of `C8_update_body_only`: updating id `"a"` rewrites
only that record's body, and updating the absent id `"zzz"` changes
nothing. -/
theorem C8_update_body_only_witness :
    (updateCommentText ("a") ("new") [updDemoA, updDemoB]).length = 2 ∧
    (updateCommentText ("a") ("new") [updDemoA, updDemoB]).get
        ⟨0, by decide⟩ = { updDemoA with text := "new" } ∧
    updateCommentText ("zzz") ("new") [updDemoA, updDemoB] = [updDemoA, updDemoB] := by
  refine ⟨?_, ?_, ?_⟩
  · exact ((C8_update_body_only ("a") ("new") [updDemoA, updDemoB]).1).trans (by decide)
  · have h := (C8_update_body_only ("a") ("new") [updDemoA, updDemoB]).2.1 0
      (by decide) (by decide)
    exact h.trans (by decide)
  · exact (C8_update_body_only ("zzz") ("new") [updDemoA, updDemoB]).2.2 (by decide)

/-- Model of `removeInlineComment` (part_000 lines 256-260): keep every
record whose id differs (`prev.filter(c => c.id !== idToRemove)`).  The
handler returns no value; the observable removal signal is whether any
record was dropped. -/
def removeInlineComment (idToRemove : String) (prev : List InlineComment) :
    List InlineComment :=
  prev.filter (fun c => c.id != idToRemove)

/-- C9: removing an id that is not present in the store is a no-op — the
result is the very same list, so length, order and every record's values are
unchanged and no removal happens (the code's `remove` yields no positive
removal signal; the spec's `false` return value denotes exactly this
"nothing was removed" outcome, which the equation captures). -/
theorem C9_remove_absent_noop (idToRemove : String) (prev : List InlineComment)
    (h : ∀ c ∈ prev, c.id ≠ idToRemove) :
    removeInlineComment idToRemove prev = prev := by
  unfold removeInlineComment
  refine List.filter_eq_self.mpr (fun c hc => ?_)
  simpa using h c hc

/-- Comment kept by the C9 witness removal. -/
def rmDemo : InlineComment :=
  { id := "kept", startIndex := 0, endIndex := 2, text := "stay", color := "c1",
    timestamp := 1, author := "T", isAIGenerated := false }

/-- Concrete instance of `C9_remove_absent_noop`. -/
theorem C9_remove_absent_noop_witness :
    removeInlineComment ("nonexistent-id") [rmDemo] = [rmDemo] :=
  C9_remove_absent_noop ("nonexistent-id") [rmDemo] (by decide)

/-- Mirror of the `SubScore` interface (part_000 lines 39-45); scores are
JavaScript numbers, modelled as exact rationals (the clamp and the
zero-denominator guard below involve only comparisons and `Math.round`,
none of which depends on binary floating-point rounding). -/
structure SubScore where
  name : String
  score : ℚ
  maxScore : ℚ
  rationale : String
deriving DecidableEq

/-- Classification of the `newScore` argument of `updateSubScore`, which
arrives as the raw string of a number input field (or as a number):
the empty string, a string whose `Number(...)` conversion is `NaN`, a finite
numeric value, or the two infinities. -/
inductive ScoreInput where
  | emptyInput
  | nanInput
  | numInput (q : ℚ)
  | posInfInput
  | negInfInput
deriving DecidableEq

/-- Value of `Math.max(0, Math.min(scoreValue, maxScore))` (part_000 lines
349-352) by case on the input: `scoreValue` is 0 for the empty string, the
`isNaN` guard maps `NaN` to 0 before clamping, a finite value is clamped
between 0 and `maxScore`, and under IEEE-754 `min`/`max` semantics
`+Infinity` clamps to `max 0 maxScore` and `-Infinity` to 0. -/
def clampedScore (input : ScoreInput) (maxScore : ℚ) : ℚ :=
  match input with
  | .emptyInput => max 0 (min 0 maxScore)
  | .nanInput => max 0 (min 0 maxScore)
  | .numInput q => max 0 (min q maxScore)
  | .posInfInput => max 0 maxScore
  | .negInfInput => 0

/-- Model of `updateSubScore` (part_000 lines 348-356): the sub-score at
`index` is replaced by the clamped input value.  An out-of-bounds index
makes the original code throw (`updatedScores[index].maxScore` on
`undefined`) before any state update, modelled as `none`. -/
def updateSubScore (subScores : List SubScore) (index : Nat) (input : ScoreInput) :
    Option (List SubScore) :=
  match subScores[index]? with
  | none => none
  | some item =>
      some (subScores.set index { item with score := clampedScore input item.maxScore })

/-- JavaScript `Math.round`: round half away from zero upward,
`Math.round(x) = floor(x + 0.5)`. -/
def jsRound (q : ℚ) : ℤ := ⌊q + 1 / 2⌋

/-- Model of `recalculateFinalScore` (part_000 lines 366-371): the final
score is the rounded percentage of total score over total maximum when the
latter is positive, and 0 otherwise. -/
def recalculateFinalScore (subScores : List SubScore) : ℤ :=
  let total := (subScores.map (fun s => s.score)).sum
  let maxTotal := (subScores.map (fun s => s.maxScore)).sum
  if 0 < maxTotal then jsRound (total / maxTotal * 100) else 0

/-- C10: for a rubric item with non-negative `maxScore`, any input leaves
the stored score clamped to `0 ≤ score ≤ maxScore`; the empty string and
non-numeric (`NaN`) inputs are treated as 0; and the recomputed final score
is 0 whenever the sum of the `maxScore`s is 0, so the division by the total
maximum is never reached. -/
theorem C10_subscore_clamped (subScores : List SubScore) (index : Nat)
    (input : ScoreInput) (item : SubScore) (hitem : subScores[index]? = some item)
    (hmax : 0 ≤ item.maxScore) :
    updateSubScore subScores index input =
      some (subScores.set index { item with score := clampedScore input item.maxScore }) ∧
    0 ≤ clampedScore input item.maxScore ∧
    clampedScore input item.maxScore ≤ item.maxScore ∧
    ((input = ScoreInput.emptyInput ∨ input = ScoreInput.nanInput) →
      clampedScore input item.maxScore = 0) ∧
    (∀ l : List SubScore, (l.map (fun s => s.maxScore)).sum = 0 →
      recalculateFinalScore l = 0) := by
  refine ⟨by simp [updateSubScore, hitem], ?_, ?_, ?_, ?_⟩
  · cases input <;> simp [clampedScore, le_max_left]
  · cases input <;> simp [clampedScore, hmax, min_le_right, max_le_iff]
  · rintro (h | h) <;> subst h <;> simp [clampedScore, min_eq_left hmax]
  · intro l hl
    simp [recalculateFinalScore, hl]

/-- Concrete instance of `C10_subscore_clamped`: on the default rubric item
with `maxScore` 30, the out-of-range input 999 is stored as 30, and the
final score over an all-zero-maximum rubric is 0. -/
theorem C10_subscore_clamped_witness :
    updateSubScore [{ name := "Content", score := 0, maxScore := 30, rationale := "" }]
        0 (ScoreInput.numInput 999) =
      some [{ name := "Content", score := 30, maxScore := 30, rationale := "" }] ∧
    recalculateFinalScore [] = 0 := by
  have h := C10_subscore_clamped
    [{ name := "Content", score := 0, maxScore := 30, rationale := "" }] 0
    (ScoreInput.numInput 999)
    { name := "Content", score := 0, maxScore := 30, rationale := "" }
    (by norm_num) (by norm_num)
  refine ⟨h.1.trans ?_, h.2.2.2.2 [] (by simp)⟩
  norm_num [clampedScore, List.set]

end GradeGenie
